import Mathlib

/-!
Verification development for the youtube-summary-app repository.

The frontend streaming consumer (`VideoAnalyzer.handleSubmit`), URL
classification (`isChannelUrl` / `handleUrlChange`) and the LLM status
indicator (`LLMServiceStatus.getStatusText`) are embedded from the
source.  The backend Analysis Orchestrator is not part of the sources;
it is modelled from the specification where a claim needs it.

Strings manipulated character-by-character (the streamed body) are
modelled as `List Char`; chunk concatenation is list append.
-/

namespace YTSum

/-- A JavaScript/JSON value, as produced by `JSON.parse` and consumed by
the event dispatcher.  `undefined` models JavaScript `undefined`, the result
of accessing a missing property. -/
inductive JVal where
  | null
  | undefined
  | bool (b : Bool)
  | num (n : Int)
  | str (s : String)
  | arr (xs : List JVal)
  | obj (fields : List (String × JVal))

/-- JavaScript property access `v[k]`: field lookup on an object,
`undefined` otherwise (missing field, or non-object receiver). -/
def JVal.getF (v : JVal) (k : String) : JVal :=
  match v with
  | .obj fields => (fields.lookup k).getD .undefined
  | _ => .undefined

/-- JavaScript strict equality `v === 's'` against a string literal. -/
def JVal.isStrEq (v : JVal) (s : String) : Bool :=
  match v with
  | .str t => t == s
  | _ => false

/-- `Array.isArray`. -/
def JVal.isArr (v : JVal) : Bool :=
  match v with
  | .arr _ => true
  | _ => false

/-- `Array.isArray(data.data) ? data.data : [data.data]` — the wrapping
applied before every `onResults` delivery. -/
def wrapAsList (v : JVal) : List JVal :=
  match v with
  | .arr xs => xs
  | v => [v]

/-- The object passed to `setProgress` / `onProgress`:
`{message: data.message, step: data.step, total: data.total, progress: data.progress}`.
Fields are raw JavaScript values (possibly `undefined`). -/
structure ProgressData where
  message : JVal
  step : JVal
  total : JVal
  progress : JVal

/-- The React state and callback history that `handleSubmit`'s streaming
loop touches: the `progress` state, the list of `onProgress` calls, the
list of `onResults` calls, and the `error` state. -/
structure ConsumerState where
  progress : ProgressData
  progressCalls : List ProgressData
  resultsCalls : List (List JVal)
  error : JVal

/-- The dispatch on `data.type` inside the streaming loop of
`handleSubmit`: `progress` updates the progress state and invokes the
progress callback with exactly {message, step, total, progress};
`result` delivers the wrapped `data.data` to the results callback;
`error` records `data.message` as the displayed error; anything else
has no effect. -/
def dispatch (st : ConsumerState) (data : JVal) : ConsumerState :=
  if (data.getF "type").isStrEq "progress" then
    let pd : ProgressData :=
      ⟨data.getF "message", data.getF "step", data.getF "total", data.getF "progress"⟩
    { st with progress := pd, progressCalls := st.progressCalls ++ [pd] }
  else if (data.getF "type").isStrEq "result" then
    { st with resultsCalls := st.resultsCalls ++ [wrapAsList (data.getF "data")] }
  else if (data.getF "type").isStrEq "error" then
    { st with error := data.getF "message" }
  else st

/-- JavaScript `String.prototype.trim` on a character list. -/
def trimChars (l : List Char) : List Char :=
  ((l.dropWhile Char.isWhitespace).reverse.dropWhile Char.isWhitespace).reverse

/-- `buffer.split('\n')` followed by `buffer = lines.pop() || ''`:
returns the complete lines (in order) and the trailing text after the
last newline, which the loop keeps in the buffer. -/
def scanLines : List Char → List (List Char) × List Char
  | [] => ([], [])
  | c :: cs =>
    let p := scanLines cs
    if c = '\n' then ([] :: p.1, p.2)
    else
      match p with
      | ([], r) => ([], c :: r)
      | (l :: ls, r) => ((c :: l) :: ls, r)

/-- Processing of one complete line: lines prefixed `data: ` have the
remainder trimmed; a nonempty remainder is given to `JSON.parse`
(abstracted as `parse`); on success the parsed event is handled, on
failure the error is logged and the line is skipped.  All other lines
are ignored. -/
def processLine {σ : Type} (parse : List Char → Option JVal)
    (handle : σ → JVal → σ) (st : σ) (line : List Char) : σ :=
  if "data: ".toList.isPrefixOf line then
    let js := trimChars (line.drop 6)
    if js.isEmpty then st
    else
      match parse js with
      | some data => handle st data
      | none => st
  else st

/-- One iteration of the read loop: append the decoded chunk to the
buffer, split on newlines keeping the last incomplete line in the
buffer, and process each complete line in order. -/
def feedChunk {σ : Type} (parse : List Char → Option JVal)
    (handle : σ → JVal → σ) (acc : σ × List Char) (chunk : List Char) :
    σ × List Char :=
  let p := scanLines (acc.2 ++ chunk)
  (p.1.foldl (processLine parse handle) acc.1, p.2)

/-- The whole read loop over a successful stream: starts with an empty
buffer, feeds every chunk, and stops at end-of-stream (the leftover
buffer is discarded, exactly as the code breaks on `done`). -/
def runChunks {σ : Type} (parse : List Char → Option JVal)
    (handle : σ → JVal → σ) (st : σ) (chunks : List (List Char)) : σ :=
  (chunks.foldl (feedChunk parse handle) (st, [])).1

/-- The sequence of successfully parsed events of a streamed body, in
delivery order. -/
def streamedEvents (parse : List Char → Option JVal)
    (chunks : List (List Char)) : List JVal :=
  runChunks parse (fun es e => es ++ [e]) [] chunks

/-- One outcome of `reader.read()`: a decoded chunk, or a rejection
(which throws out of the streaming loop). -/
inductive ReadStep where
  | chunk (s : List Char)
  | fail

/-- Whether a read step is a rejection. -/
def ReadStep.isFail : ReadStep → Bool
  | .chunk _ => false
  | .fail => true

/-- Run the streaming loop over the sequence of read outcomes, with the
full dispatch as handler.  Returns the consumer state at the moment the
loop ends, and whether it ended by a thrown read error (true) or by
end-of-stream (false). -/
def runSteps (parse : List Char → Option JVal) :
    List ReadStep → ConsumerState × List Char → ConsumerState × Bool
  | [], acc => (acc.1, false)
  | .fail :: _, acc => (acc.1, true)
  | .chunk c :: rest, acc => runSteps parse rest (feedChunk parse dispatch acc c)

/-- The `analysisType` react state. -/
inductive AnalysisType where
  | video
  | channel
deriving DecidableEq

/-- `url.includes(needle)`. -/
def jsIncludes (url needle : String) : Bool :=
  decide (needle.toList <:+: url.toList)

/-- `isChannelUrl` from `VideoAnalyzer`: substring tests for the three
channel indicators, with no network access. -/
def isChannelUrl (url : String) : Bool :=
  jsIncludes url "/@" || jsIncludes url "/channel/" || jsIncludes url "/c/"

/-- `handleUrlChange`: stores the new URL and auto-detects the analysis
type from it. -/
def handleUrlChange (newUrl : String) : String × AnalysisType :=
  (newUrl, if isChannelUrl newUrl then .channel else .video)

/-- The streaming endpoint chosen for the submit. -/
def streamEndpoint : AnalysisType → String
  | .video => "/api/analyze/video/stream"
  | .channel => "/api/analyze/channel/stream"

/-- The synchronous fallback endpoint. -/
def syncEndpoint : AnalysisType → String
  | .video => "/api/analyze/video"
  | .channel => "/api/analyze/channel"

/-- A network request issued by `handleSubmit`: endpoint and payload
(`{url}` in video mode, `{url, limit}` in channel mode). -/
structure Request where
  endpoint : String
  url : String
  limit : Option Nat

/-- The payload's `limit` field: present only in channel mode. -/
def limitField (t : AnalysisType) (limit : Nat) : Option Nat :=
  match t with
  | .video => none
  | .channel => some limit

/-- Outcome of the `fetch` of the streaming endpoint: the call itself
rejects, the response is not ok (throws `HTTP error!`), or a body whose
reads produce the given outcomes. -/
inductive FetchResult where
  | throws
  | notOk
  | ok (steps : List ReadStep)

/-- Whether the streaming attempt throws out of the `try` block: fetch
rejection, non-ok status, or a read rejection mid-stream. -/
def FetchResult.failed : FetchResult → Bool
  | .throws => true
  | .notOk => true
  | .ok steps => steps.any ReadStep.isFail

/-- Outcome of the fallback `axios.post`: a response body, or an error
with optional `response.data.detail` and `message`. -/
inductive FallbackResult where
  | ok (data : JVal)
  | err (detail : Option String) (message : Option String)

/-- JavaScript `a || d` for an optional string `a`: the default is used
when `a` is absent or empty (falsy). -/
def jsOr (a : Option String) (d : String) : String :=
  match a with
  | some s => if s = "" then d else s
  | none => d

/-- All component state and observable activity that `handleSubmit`
touches: the form fields, the consumer state (`progress`, callback
histories, `error`), the history of `onLoading` calls, and the network
requests issued to the streaming and fallback endpoints. -/
structure SubmitState where
  url : String
  analysisType : AnalysisType
  limit : Nat
  consumer : ConsumerState
  loadingCalls : List Bool
  requests : List Request
  fallbackRequests : List Request

/-- The progress object set just before the request:
`{message: 'Starting analysis...', step: 0, total: 0, progress: 0}`. -/
def startProgress : ProgressData :=
  ⟨.str "Starting analysis...", .num 0, .num 0, .num 0⟩

/-- The progress object restored in `finally`:
`{message: '', step: 0, total: 0, progress: 0}`. -/
def emptyProgress : ProgressData :=
  ⟨.str "", .num 0, .num 0, .num 0⟩

/-- JavaScript `url.trim()` as a computable string function. -/
def jsTrim (s : String) : String :=
  ⟨trimChars s.data⟩

/-- The state updates performed before the `try` block: clear the
error, `onLoading(true)`, `onResults([])`, set the starting progress,
and issue the streaming request with payload `{url}` or
`{url, limit}`. -/
def startSubmit (st : SubmitState) : SubmitState :=
  { st with
    consumer := { st.consumer with
      error := .str ""
      resultsCalls := st.consumer.resultsCalls ++ [[]]
      progress := startProgress }
    loadingCalls := st.loadingCalls ++ [true]
    requests := st.requests ++
      [⟨streamEndpoint st.analysisType, jsTrim st.url, limitField st.analysisType st.limit⟩] }

/-- The streaming attempt: a fetch rejection or non-ok status leaves
the consumer state unchanged and throws; an ok response runs the read
loop. -/
def afterStream (parse : List Char → Option JVal) :
    FetchResult → ConsumerState → ConsumerState × Bool
  | .throws, c => (c, true)
  | .notOk, c => (c, true)
  | .ok steps, c => runSteps parse steps (c, [])

/-- The synchronous fallback request, carrying the same payload as the
streaming request. -/
def fallbackReq (st : SubmitState) : Request :=
  ⟨syncEndpoint st.analysisType, jsTrim st.url, limitField st.analysisType st.limit⟩

/-- The fallback branch: post to the synchronous endpoint; on success
deliver the wrapped payload to `onResults`, on failure set the error
from `response.data.detail`, `message`, or the default text. -/
def applyFallback (fb : FallbackResult) (req : Request) (st2 : SubmitState) :
    SubmitState :=
  let st' : SubmitState :=
    { st2 with fallbackRequests := st2.fallbackRequests ++ [req] }
  match fb with
  | .ok data =>
    { st' with consumer.resultsCalls := st'.consumer.resultsCalls ++ [wrapAsList data] }
  | .err detail message =>
    { st' with consumer.error :=
        JVal.str (jsOr detail (jsOr message "Failed to analyze video/channel")) }

/-- The `finally` block: `onLoading(false)` and reset the progress. -/
def finishSubmit (st3 : SubmitState) : SubmitState :=
  { st3 with loadingCalls := st3.loadingCalls ++ [false], consumer.progress := emptyProgress }

/-- `handleSubmit` from `VideoAnalyzer`, end to end: the empty-URL
guard, the initial state updates, the streaming request and read loop,
the fallback to the synchronous endpoint when the streaming attempt
throws, and the `finally` block. -/
def handleSubmit (parse : List Char → Option JVal) (fetchRes : FetchResult)
    (fb : FallbackResult) (st : SubmitState) : SubmitState :=
  if jsTrim st.url = "" then
    { st with consumer.error := .str "Please enter a YouTube URL" }
  else
    let st1 : SubmitState := startSubmit st
    let after : ConsumerState × Bool := afterStream parse fetchRes st1.consumer
    let st2 : SubmitState := { st1 with consumer := after.1 }
    let st3 : SubmitState :=
      if after.2 then applyFallback fb (fallbackReq st) st2 else st2
    finishSubmit st3

/-- `getStatusText` from `LLMServiceStatus`. -/
def getStatusText (status : String) : String :=
  match status with
  | "connected" => "Connected"
  | "disconnected" => "Disconnected"
  | "error" => "Error"
  | _ => "Unknown"

/-- Modelled from the spec: per-video metadata handed to the
summarizer; the backend Extractor is not under the sources. -/
structure VideoInfo where
  title : String
  description : String
  transcript : Option String

/-- The processing depth applied to one video. -/
inductive Tier where
  | fullAI
  | basicInfo
deriving DecidableEq

/-- Modelled from the spec: one `AnalysisResult` per processed video;
the backend data model is not under the sources. -/
structure AnalysisResult where
  video : VideoInfo
  summary : Option String
  usedTranscript : Bool
  tier : Tier

/-- Modelled from the spec: the fixed summarization budget K=3. -/
def summaryBudget : Nat := 3

/-- Modelled from the spec: processing of the video at position `i` of
a channel batch (presentation order); the backend Analysis Orchestrator
is not under the sources.  Within the budget the video gets transcript
fetch plus LLM summary (tier `full-ai`); past it, `basic-info` with no
LLM call.  The second component counts LLM calls made. -/
def processVideoAt (summarize : VideoInfo → Option String → String)
    (i : Nat) (v : VideoInfo) : AnalysisResult × Nat :=
  if i < summaryBudget then
    (⟨v, some (summarize v v.transcript), v.transcript.isSome, .fullAI⟩, 1)
  else
    (⟨v, none, false, .basicInfo⟩, 0)

/-- Modelled from the spec: the orchestrator's pass over a channel
batch starting at position `i`, accumulating results in order and the
total number of LLM calls. -/
def processFrom (summarize : VideoInfo → Option String → String)
    (i : Nat) : List VideoInfo → List AnalysisResult × Nat
  | [] => ([], 0)
  | v :: vs =>
    let p := processVideoAt summarize i v
    let q := processFrom summarize (i + 1) vs
    (p.1 :: q.1, p.2 + q.2)

/-- Modelled from the spec: the orchestrator's processing of a whole
channel batch, given in presentation order. -/
def processChannelBatch (summarize : VideoInfo → Option String → String)
    (videos : List VideoInfo) : List AnalysisResult × Nat :=
  processFrom summarize 0 videos

/-- Modelled from the spec: a progress event stream element emitted by
the Analysis Orchestrator. -/
inductive OEvent where
  | progress (message : String) (step total percent : Nat)
  | result (payload : List AnalysisResult)
  | error (message : String)

/-- Whether an orchestrator event is a `progress` event. -/
def OEvent.isProgress : OEvent → Bool
  | .progress _ _ _ _ => true
  | _ => false

/-- Whether an orchestrator event is terminal (`result` or `error`). -/
def OEvent.isTerminal : OEvent → Bool
  | .result _ => true
  | .error _ => true
  | _ => false

/-- The `step` field of a progress event (0 otherwise). -/
def OEvent.stepOf : OEvent → Nat
  | .progress _ s _ _ => s
  | _ => 0

/-- Modelled from the spec: `percent = round(step/total*100)` with
round-half-up, as integer arithmetic. -/
def roundPercent (step total : Nat) : Nat :=
  (200 * step + total) / (2 * total)

/-- Modelled from the spec: the Analysis Orchestrator run (the backend
is not under the sources).  A failed top-level extraction yields a
single terminal `error` event; otherwise one `progress` event per video
with step 1..T, followed by exactly one terminal `result` event with
the full ordered list.  No event follows the terminal one. -/
def orchestratorRun (summarize : VideoInfo → Option String → String)
    (extraction : Option (List VideoInfo)) (errMsg : String) : List OEvent :=
  match extraction with
  | none => [.error errMsg]
  | some vids =>
    let T := vids.length
    ((List.range T).map fun i =>
      .progress "Processing" (i + 1) T (roundPercent (i + 1) T)) ++
      [.result (processChannelBatch summarize vids).1]

/-- The batch size of an extraction outcome (0 when extraction failed). -/
def totalOf : Option (List VideoInfo) → Nat
  | none => 0
  | some vids => vids.length

/-- How `scanLines` of a concatenation continues from the leftover of
the first part: the leftover is glued onto the first line of the second
part (or onto its leftover when the second part has no newline). -/
def glue (r : List Char) (p : List (List Char) × List Char) :
    List (List Char) × List Char :=
  match p with
  | ([], rb) => ([], r ++ rb)
  | (lb :: lbs, rb) => ((r ++ lb) :: lbs, rb)

/-! ### Lemmas about line scanning -/

theorem scanLines_nil : scanLines [] = ([], []) := rfl

theorem scanLines_cons (c : Char) (cs : List Char) :
    scanLines (c :: cs) =
      if c = '\n' then ([] :: (scanLines cs).1, (scanLines cs).2)
      else
        match scanLines cs with
        | ([], r) => ([], c :: r)
        | (l :: ls, r) => ((c :: l) :: ls, r) := rfl

/-- The buffered leftover never contains a newline. -/
theorem scanLines_rest_no_newline (l : List Char) : '\n' ∉ (scanLines l).2 := by
  induction l with
  | nil => simp [scanLines_nil]
  | cons c cs ih =>
    rw [scanLines_cons]
    by_cases h : c = '\n'
    · rw [if_pos h]; exact ih
    · rw [if_neg h]
      rcases hS : scanLines cs with ⟨ls, r⟩
      rw [hS] at ih
      cases ls with
      | nil =>
        simp only [List.mem_cons]
        rintro (rfl | hr)
        · exact h rfl
        · exact ih hr
      | cons l₀ ls' => exact ih

/-- A newline-free text is all leftover. -/
theorem scanLines_no_newline (l : List Char) (h : '\n' ∉ l) :
    scanLines l = ([], l) := by
  induction l with
  | nil => rfl
  | cons c cs ih =>
    rw [scanLines_cons]
    have hc : ¬ c = '\n' := fun hc => h (hc ▸ List.mem_cons_self c cs)
    rw [if_neg hc, ih (fun hm => h (List.mem_cons_of_mem c hm))]

theorem glue_nil (p : List (List Char) × List Char) : glue [] p = p := by
  rcases p with ⟨ls, r⟩
  cases ls <;> rfl

/-- Scanning a concatenation: the complete lines of the first part,
then the second part's lines with the first leftover glued on. -/
theorem scanLines_append (a b : List Char) :
    scanLines (a ++ b) =
      ((scanLines a).1 ++ (glue (scanLines a).2 (scanLines b)).1,
       (glue (scanLines a).2 (scanLines b)).2) := by
  induction a with
  | nil =>
    rw [List.nil_append, scanLines_nil, glue_nil]
    simp
  | cons c a ih =>
    rw [List.cons_append, scanLines_cons, scanLines_cons c a, ih]
    by_cases h : c = '\n'
    · rw [if_pos h, if_pos h]
      simp
    · rw [if_neg h, if_neg h]
      rcases hA : scanLines a with ⟨la, ra⟩
      cases la with
      | nil =>
        rcases hB : scanLines b with ⟨lb, rb⟩
        cases lb with
        | nil => simp [glue]
        | cons l₀ ls₀ => simp [glue]
      | cons l₀ ls₀ => simp [glue]

/-- Feeding two chunks in sequence is feeding their concatenation. -/
theorem feedChunk_append {σ : Type} (parse : List Char → Option JVal)
    (handle : σ → JVal → σ) (acc : σ × List Char) (a b : List Char) :
    feedChunk parse handle (feedChunk parse handle acc a) b =
      feedChunk parse handle acc (a ++ b) := by
  unfold feedChunk
  have hr := scanLines_no_newline _ (scanLines_rest_no_newline (acc.2 ++ a))
  rw [← List.append_assoc, scanLines_append (acc.2 ++ a) b,
    scanLines_append ((scanLines (acc.2 ++ a)).2) b, hr]
  simp [List.foldl_append]

/-- The read loop over any chunk list, started on a newline-free
buffer, equals one feed of the concatenation. -/
theorem foldl_feedChunk {σ : Type} (parse : List Char → Option JVal)
    (handle : σ → JVal → σ) (chunks : List (List Char)) (acc : σ × List Char)
    (h : '\n' ∉ acc.2) :
    chunks.foldl (feedChunk parse handle) acc =
      feedChunk parse handle acc chunks.flatten := by
  induction chunks generalizing acc with
  | nil =>
    rw [List.foldl_nil, List.flatten_nil]
    unfold feedChunk
    rw [List.append_nil, scanLines_no_newline _ h]
    simp
  | cons c cs ih =>
    rw [List.foldl_cons, List.flatten_cons,
      ih _ (scanLines_rest_no_newline (acc.2 ++ c)), feedChunk_append]

/-- C1: For every streamed response body and every way of splitting it
into chunks, the streaming consumer reconstructs the same sequence of
events: buffering partial reads and splitting on newlines (keeping the
last incomplete line in the buffer), the sequence of events parsed from
the `data: ` lines is independent of chunk boundaries, and equals the
sequence obtained from processing the whole text as a single chunk. -/
theorem streamedEvents_chunk_independent (parse : List Char → Option JVal)
    (chunks : List (List Char)) :
    streamedEvents parse chunks = streamedEvents parse [chunks.flatten] := by
  unfold streamedEvents runChunks
  rw [foldl_feedChunk _ _ chunks _ (by simp),
    foldl_feedChunk _ _ [chunks.flatten] _ (by simp)]
  simp

/-! ### URL classification -/

/-- `isChannelUrl` holds exactly on the three substring indicators. -/
theorem isChannelUrl_true_iff (url : String) :
    isChannelUrl url = true ↔
      ("/@".toList <:+: url.toList ∨ "/channel/".toList <:+: url.toList ∨
        "/c/".toList <:+: url.toList) := by
  unfold isChannelUrl jsIncludes
  simp [or_assoc]

/-- C4: a URL is classified as a channel URL iff it contains one of the
three channel indicators (`/@` handle, `/channel/`, `/c/`), and as a
single-video URL otherwise; the classification is a pure substring
test, with no network access. -/
theorem url_classification (url : String) :
    ((handleUrlChange url).2 = .channel ↔
      ("/@".toList <:+: url.toList ∨ "/channel/".toList <:+: url.toList ∨
        "/c/".toList <:+: url.toList))
    ∧ ((handleUrlChange url).2 = .video ↔
      ¬("/@".toList <:+: url.toList ∨ "/channel/".toList <:+: url.toList ∨
        "/c/".toList <:+: url.toList)) := by
  rw [← isChannelUrl_true_iff url]
  cases hb : isChannelUrl url <;> simp [handleUrlChange, hb]

/-! ### LLM status indicator -/

/-- C7: the status indicator is total over arbitrary status strings:
`connected` renders as `Connected`, `disconnected` as `Disconnected`,
`error` as `Error`, and every other status as `Unknown`. -/
theorem statusText_total (s : String) :
    getStatusText s =
      if s = "connected" then "Connected"
      else if s = "disconnected" then "Disconnected"
      else if s = "error" then "Error"
      else "Unknown" := by
  unfold getStatusText
  split <;> simp_all


/-! ### Event dispatch -/

theorem isStrEq_eq_true_iff (v : JVal) (s : String) :
    v.isStrEq s = true ↔ v = .str s := by
  cases v <;> simp [JVal.isStrEq]

/-- C6: the consumer dispatches on the mandatory `type` field: a
`progress` event updates the progress state and invokes the progress
callback with exactly {message, step, total, progress}; a `result`
event delivers its wrapped `data` payload to the results callback; an
`error` event records its message as the displayed error; an event
whose type is none of the three leaves the state untouched. -/
theorem dispatch_on_type (st : ConsumerState) (data : JVal) :
    ((data.getF "type").isStrEq "progress" = true →
      dispatch st data =
        { st with
            progress := ⟨data.getF "message", data.getF "step",
              data.getF "total", data.getF "progress"⟩,
            progressCalls := st.progressCalls ++
              [⟨data.getF "message", data.getF "step",
                data.getF "total", data.getF "progress"⟩] })
    ∧ ((data.getF "type").isStrEq "result" = true →
      dispatch st data =
        { st with resultsCalls := st.resultsCalls ++ [wrapAsList (data.getF "data")] })
    ∧ ((data.getF "type").isStrEq "error" = true →
      dispatch st data = { st with error := data.getF "message" })
    ∧ ((data.getF "type").isStrEq "progress" = false →
       (data.getF "type").isStrEq "result" = false →
       (data.getF "type").isStrEq "error" = false →
      dispatch st data = st) := by
  refine ⟨fun h1 => ?_, fun h2 => ?_, fun h3 => ?_, fun h1 h2 h3 => ?_⟩
  · rw [dispatch, if_pos h1]
  · have h1 : (data.getF "type").isStrEq "progress" = false := by
      rw [isStrEq_eq_true_iff] at h2
      rw [h2]; rfl
    rw [dispatch, if_neg (by simp [h1]), if_pos h2]
  · have h1 : (data.getF "type").isStrEq "progress" = false := by
      rw [isStrEq_eq_true_iff] at h3
      rw [h3]; rfl
    have h2 : (data.getF "type").isStrEq "result" = false := by
      rw [isStrEq_eq_true_iff] at h3
      rw [h3]; rfl
    rw [dispatch, if_neg (by simp [h1]), if_neg (by simp [h2]), if_pos h3]
  · rw [dispatch, if_neg (by simp [h1]), if_neg (by simp [h2]), if_neg (by simp [h3])]

/-- A consumer state as the component mounts. -/
def emptyConsumer : ConsumerState :=
  ⟨emptyProgress, [], [], .str ""⟩

/-- A concrete streamed `progress` event object. -/
def progObj : JVal :=
  .obj [("type", .str "progress"), ("message", .str "Analyzing video"),
    ("step", .num 1), ("total", .num 2), ("progress", .num 50)]

/-- A concrete streamed `result` event object. -/
def resObj : JVal :=
  .obj [("type", .str "result"), ("data", .arr [.str "r1", .str "r2"])]

/-- A concrete streamed `error` event object. -/
def errObj : JVal :=
  .obj [("type", .str "error"), ("message", .str "boom")]

/-- A concrete streamed event object of an unknown type. -/
def otherObj : JVal :=
  .obj [("type", .str "done")]

/-- Witness for `dispatch_on_type`: the four branches at concrete
events, with every hypothesis discharged by evaluation. -/
theorem dispatch_on_type_witness :
    (dispatch emptyConsumer progObj =
      { emptyConsumer with
          progress := ⟨.str "Analyzing video", .num 1, .num 2, .num 50⟩,
          progressCalls := [⟨.str "Analyzing video", .num 1, .num 2, .num 50⟩] })
    ∧ (dispatch emptyConsumer resObj =
      { emptyConsumer with resultsCalls := [[.str "r1", .str "r2"]] })
    ∧ (dispatch emptyConsumer errObj = { emptyConsumer with error := .str "boom" })
    ∧ dispatch emptyConsumer otherObj = emptyConsumer := by
  refine ⟨?_, ?_, ?_, ?_⟩
  · exact ((dispatch_on_type emptyConsumer progObj).1 rfl).trans (by rfl)
  · exact ((dispatch_on_type emptyConsumer resObj).2.1 rfl).trans (by rfl)
  · exact ((dispatch_on_type emptyConsumer errObj).2.2.1 rfl).trans (by rfl)
  · exact (dispatch_on_type emptyConsumer otherObj).2.2.2 rfl rfl rfl

/-! ### The submit handler -/

/-- C10: a submission whose URL is empty or only whitespace sets the
error message `Please enter a YouTube URL` and returns: no network
request is issued, and results, loading and progress state are
untouched. -/
theorem empty_url_guard (parse : List Char → Option JVal)
    (fetchRes : FetchResult) (fb : FallbackResult) (st : SubmitState)
    (h : jsTrim st.url = "") :
    handleSubmit parse fetchRes fb st =
      { st with consumer.error := JVal.str "Please enter a YouTube URL" } := by
  rw [handleSubmit, if_pos h]

/-- A submit state with a whitespace-only URL. -/
def blankSubmit : SubmitState :=
  { url := "   ", analysisType := .video, limit := 5,
    consumer := emptyConsumer, loadingCalls := [], requests := [],
    fallbackRequests := [] }

/-- Witness for `empty_url_guard` at a whitespace-only URL. -/
theorem empty_url_guard_witness :
    jsTrim "   " = "" ∧
    handleSubmit (fun _ => none) .throws (.ok .null) blankSubmit =
      { blankSubmit with consumer.error := JVal.str "Please enter a YouTube URL" } :=
  ⟨by decide, empty_url_guard (fun _ => none) .throws (.ok .null) blankSubmit (by decide)⟩


/-! ### Orchestrator: budget and event sequence -/

theorem processFrom_length (summarize : VideoInfo → Option String → String)
    (i : Nat) (vs : List VideoInfo) :
    (processFrom summarize i vs).1.length = vs.length := by
  induction vs generalizing i with
  | nil => rfl
  | cons v vs ih => simp [processFrom, ih]

theorem processFrom_calls (summarize : VideoInfo → Option String → String)
    (i : Nat) (vs : List VideoInfo) :
    (processFrom summarize i vs).2 = min vs.length (summaryBudget - i) := by
  induction vs generalizing i with
  | nil => simp [processFrom]
  | cons v vs ih =>
    simp only [processFrom, processVideoAt, List.length_cons, ih]
    by_cases h : i < summaryBudget
    · rw [if_pos h]
      unfold summaryBudget at h ⊢
      omega
    · rw [if_neg h]
      unfold summaryBudget at h ⊢
      omega

theorem processFrom_tier (summarize : VideoInfo → Option String → String)
    (i : Nat) (vs : List VideoInfo) (j : Nat)
    (h : j < (processFrom summarize i vs).1.length) :
    ((processFrom summarize i vs).1.get ⟨j, h⟩).tier =
      if i + j < summaryBudget then .fullAI else .basicInfo := by
  induction vs generalizing i j with
  | nil => simp [processFrom] at h
  | cons v vs ih =>
    cases j with
    | zero =>
      show ((processFrom summarize i (v :: vs)).1.get ⟨0, h⟩).tier = _
      simp only [processFrom, processVideoAt]
      by_cases hb : i < summaryBudget
      · rw [if_pos hb]
        simp [hb]
      · rw [if_neg hb]
        simp [hb]
    | succ j =>
      have h' : j < (processFrom summarize (i + 1) vs).1.length := by
        have := h
        simp only [processFrom, List.length_cons] at this
        omega
      have := ih (i + 1) j h'
      simp only [processFrom, List.get_cons_succ]
      rw [this]
      have harith : i + 1 + j = i + (j + 1) := by omega
      rw [harith]

theorem processFrom_count (summarize : VideoInfo → Option String → String)
    (i : Nat) (vs : List VideoInfo) :
    (processFrom summarize i vs).1.countP (fun r => decide (r.tier = Tier.fullAI)) =
      min vs.length (summaryBudget - i) := by
  induction vs generalizing i with
  | nil => simp [processFrom]
  | cons v vs ih =>
    simp only [processFrom, processVideoAt, List.countP_cons, List.length_cons, ih]
    by_cases h : i < summaryBudget
    · rw [if_pos h]
      unfold summaryBudget at h ⊢
      simp
      omega
    · rw [if_neg h]
      unfold summaryBudget at h ⊢
      simp
      omega

/-- C3: for every channel batch of N videos in presentation order and
every limit L with 3 ≤ L ≤ 15 (so N ≤ L), exactly min(N, 3) results —
those at the first three positions — have tier `full-ai`, every other
result has tier `basic-info`, and exactly min(N, 3) LLM calls are
made. -/
theorem channel_budget (summarize : VideoInfo → Option String → String)
    (videos : List VideoInfo) (L : Nat)
    (h3 : 3 ≤ L) (h15 : L ≤ 15) (hN : videos.length ≤ L) :
    (processChannelBatch summarize videos).1.length = videos.length
    ∧ (processChannelBatch summarize videos).1.countP
        (fun r => decide (r.tier = Tier.fullAI)) = min videos.length 3
    ∧ (∀ j (h : j < (processChannelBatch summarize videos).1.length),
        ((processChannelBatch summarize videos).1.get ⟨j, h⟩).tier =
          if j < 3 then .fullAI else .basicInfo)
    ∧ (processChannelBatch summarize videos).2 = min videos.length 3 := by
  refine ⟨processFrom_length summarize 0 videos, ?_, ?_, ?_⟩
  · rw [processChannelBatch, processFrom_count]
    simp [summaryBudget]
  · intro j h
    exact (processFrom_tier summarize 0 videos j h).trans (by simp [summaryBudget])
  · rw [processChannelBatch, processFrom_calls]
    simp [summaryBudget]

/-- A concrete batch of five extracted videos. -/
def sampleVideos : List VideoInfo :=
  [⟨"v1", "d1", some "t1"⟩, ⟨"v2", "d2", none⟩, ⟨"v3", "d3", some "t3"⟩,
   ⟨"v4", "d4", none⟩, ⟨"v5", "d5", some "t5"⟩]

/-- Witness for `channel_budget`: a batch of 5 with limit 5. -/
theorem channel_budget_witness :
    (3 ≤ 5 ∧ 5 ≤ 15 ∧ sampleVideos.length ≤ 5)
    ∧ ((processChannelBatch (fun v _ => v.title) sampleVideos).1.length =
        sampleVideos.length
      ∧ (processChannelBatch (fun v _ => v.title) sampleVideos).1.countP
          (fun r => decide (r.tier = Tier.fullAI)) = min sampleVideos.length 3
      ∧ (∀ j (h : j < (processChannelBatch (fun v _ => v.title) sampleVideos).1.length),
          ((processChannelBatch (fun v _ => v.title) sampleVideos).1.get ⟨j, h⟩).tier =
            if j < 3 then .fullAI else .basicInfo)
      ∧ (processChannelBatch (fun v _ => v.title) sampleVideos).2 =
          min sampleVideos.length 3) :=
  ⟨by refine ⟨by decide, by decide, by decide⟩,
    channel_budget (fun v _ => v.title) sampleVideos 5 (by decide) (by decide) (by decide)⟩

/-- C2: an orchestrator run over a batch of total T delivers zero or
more progress events with `step` strictly increasing from 1 to T,
followed by exactly one terminal event (`result` or `error`), and no
event after the terminal one. -/
theorem orchestrator_event_sequence (summarize : VideoInfo → Option String → String)
    (extraction : Option (List VideoInfo)) (errMsg : String) :
    ∃ ps t, orchestratorRun summarize extraction errMsg = ps ++ [t]
      ∧ (∀ e ∈ ps, e.isProgress = true)
      ∧ t.isTerminal = true
      ∧ ps.map OEvent.stepOf = (List.range (totalOf extraction)).map (fun i => i + 1) := by
  cases extraction with
  | none =>
    refine ⟨[], .error errMsg, rfl, by simp, rfl, by simp [totalOf]⟩
  | some vids =>
    refine ⟨(List.range vids.length).map (fun i =>
        .progress "Processing" (i + 1) vids.length (roundPercent (i + 1) vids.length)),
      .result (processChannelBatch summarize vids).1, rfl, ?_, rfl, ?_⟩
    · intro e he
      simp only [List.mem_map] at he
      obtain ⟨i, _, rfl⟩ := he
      rfl
    · simp [totalOf, List.map_map, OEvent.stepOf]


/-! ### Fallback behaviour -/

theorem runSteps_snd (parse : List Char → Option JVal) (steps : List ReadStep)
    (acc : ConsumerState × List Char) :
    (runSteps parse steps acc).2 = steps.any ReadStep.isFail := by
  induction steps generalizing acc with
  | nil => rfl
  | cons step rest ih =>
    cases step with
    | fail => simp [runSteps, ReadStep.isFail]
    | chunk c => simp [runSteps, ReadStep.isFail, ih]

theorem afterStream_snd (parse : List Char → Option JVal)
    (fetchRes : FetchResult) (c : ConsumerState) :
    (afterStream parse fetchRes c).2 = fetchRes.failed := by
  cases fetchRes with
  | throws => rfl
  | notOk => rfl
  | ok steps => exact runSteps_snd parse steps (c, [])

theorem applyFallback_requests (fb : FallbackResult) (req : Request)
    (st2 : SubmitState) :
    (applyFallback fb req st2).fallbackRequests = st2.fallbackRequests ++ [req] := by
  cases fb <;> rfl

theorem handleSubmit_fallbackRequests (parse : List Char → Option JVal)
    (fetchRes : FetchResult) (fb : FallbackResult) (st : SubmitState)
    (h : ¬ jsTrim st.url = "") :
    (handleSubmit parse fetchRes fb st).fallbackRequests =
      st.fallbackRequests ++
        (if fetchRes.failed = true then [fallbackReq st] else []) := by
  unfold handleSubmit
  rw [if_neg h]
  show (finishSubmit _).fallbackRequests = _
  rw [show ∀ x, (finishSubmit x).fallbackRequests = x.fallbackRequests from fun _ => rfl]
  rw [afterStream_snd]
  cases hf : fetchRes.failed with
  | true =>
    rw [if_pos rfl, if_pos rfl, applyFallback_requests]
    rfl
  | false =>
    rw [if_neg (by simp), if_neg (by simp)]
    simp [startSubmit]

theorem handleSubmit_fallback_ok_results (parse : List Char → Option JVal)
    (fetchRes : FetchResult) (d : JVal) (st : SubmitState)
    (h : ¬ jsTrim st.url = "") (hf : fetchRes.failed = true) :
    (handleSubmit parse fetchRes (.ok d) st).consumer.resultsCalls.getLast? =
      some (wrapAsList d) := by
  unfold handleSubmit
  rw [if_neg h]
  show (finishSubmit _).consumer.resultsCalls.getLast? = _
  rw [show ∀ x, (finishSubmit x).consumer.resultsCalls = x.consumer.resultsCalls
      from fun _ => rfl]
  rw [afterStream_snd, hf, if_pos rfl]
  rw [show ∀ req x, (applyFallback (.ok d) req x).consumer.resultsCalls =
      x.consumer.resultsCalls ++ [wrapAsList d] from fun _ _ => rfl]
  exact List.getLast?_concat _

/-- A submit state with a nonempty video URL, as mounted. -/
def initSubmit : SubmitState :=
  { url := "https://youtube.com/watch?v=abc", analysisType := .video, limit := 5,
    consumer := emptyConsumer, loadingCalls := [], requests := [],
    fallbackRequests := [] }

/-- Stand-in for `JSON.parse` succeeding on the streamed progress
event's text. -/
def progParse : List Char → Option JVal := fun _ => some progObj

/-- C5, counterexample: the catch block wraps the whole streaming loop,
so a read failure occurring after a progress event was already
delivered still triggers the synchronous fallback — refuting that the
fallback happens only when no event has yet been delivered.  Here one
progress event is delivered (one `onProgress` call), the next read
fails, and the fallback request is nevertheless issued. -/
theorem fallback_after_delivery :
    ((handleSubmit progParse (.ok [.chunk ("data: e\n".toList), .fail])
        (.ok (.arr [])) initSubmit).consumer.progressCalls.length = 1)
    ∧ ((handleSubmit progParse (.ok [.chunk ("data: e\n".toList), .fail])
        (.ok (.arr [])) initSubmit).fallbackRequests.length = 1) := by
  constructor <;> rfl

/-- C5, amended: whenever the streaming attempt throws — the transport
cannot be established (fetch rejection or non-ok response) or a read
fails mid-stream, regardless of whether events were already
delivered — the caller falls back to the equivalent synchronous
endpoint with the same payload (url, and limit in channel mode) and
delivers its terminal payload as the result; no fallback happens when
the stream completes. -/
theorem fallback_on_stream_failure (parse : List Char → Option JVal)
    (fetchRes : FetchResult) (fb : FallbackResult) (st : SubmitState)
    (h : ¬ jsTrim st.url = "") :
    ((handleSubmit parse fetchRes fb st).requests =
      st.requests ++
        [⟨streamEndpoint st.analysisType, jsTrim st.url, limitField st.analysisType st.limit⟩])
    ∧ ((handleSubmit parse fetchRes fb st).fallbackRequests =
      st.fallbackRequests ++
        (if fetchRes.failed = true then
          [⟨syncEndpoint st.analysisType, jsTrim st.url, limitField st.analysisType st.limit⟩]
        else []))
    ∧ (∀ d, fetchRes.failed = true → fb = FallbackResult.ok d →
        (handleSubmit parse fetchRes fb st).consumer.resultsCalls.getLast? =
          some (wrapAsList d)) := by
  refine ⟨?_, handleSubmit_fallbackRequests parse fetchRes fb st h, ?_⟩
  · unfold handleSubmit
    rw [if_neg h]
    show (finishSubmit _).requests = _
    rw [show ∀ x, (finishSubmit x).requests = x.requests from fun _ => rfl]
    cases hf : (afterStream parse fetchRes (startSubmit st).consumer).2 with
    | true =>
      rw [if_pos rfl]
      rw [show ∀ r x, (applyFallback fb r x).requests = x.requests from
        fun r x => by cases fb <;> rfl]
      rfl
    | false =>
      rw [if_neg (by simp)]
      rfl
  · rintro d hf rfl
    exact handleSubmit_fallback_ok_results parse fetchRes d st h hf

/-- Witness for `fallback_on_stream_failure`: a failed fetch on a
nonempty URL, with a successful fallback. -/
theorem fallback_on_stream_failure_witness :
    ¬ jsTrim initSubmit.url = "" ∧
    (((handleSubmit progParse .throws (.ok (.arr [.str "r"])) initSubmit).requests =
      initSubmit.requests ++
        [⟨streamEndpoint initSubmit.analysisType, jsTrim initSubmit.url,
          limitField initSubmit.analysisType initSubmit.limit⟩])
    ∧ ((handleSubmit progParse .throws (.ok (.arr [.str "r"])) initSubmit).fallbackRequests =
      initSubmit.fallbackRequests ++
        (if FetchResult.throws.failed = true then
          [⟨syncEndpoint initSubmit.analysisType, jsTrim initSubmit.url,
            limitField initSubmit.analysisType initSubmit.limit⟩]
        else []))
    ∧ ((handleSubmit progParse .throws (.ok (.arr [.str "r"])) initSubmit).consumer.resultsCalls.getLast? =
        some (wrapAsList (.arr [.str "r"])))) :=
  ⟨by decide,
    (fallback_on_stream_failure progParse .throws (.ok (.arr [.str "r"])) initSubmit (by decide)).1,
    (fallback_on_stream_failure progParse .throws (.ok (.arr [.str "r"])) initSubmit (by decide)).2.1,
    (fallback_on_stream_failure progParse .throws (.ok (.arr [.str "r"])) initSubmit (by decide)).2.2
      (.arr [.str "r"]) rfl rfl⟩


/-! ### Results are always delivered as a list; bad lines are skipped -/

/-- C8: the results callback always receives a list, on the streaming
path and on the synchronous fallback path alike: an array payload is
passed through unchanged, and a non-array payload is wrapped into a
one-element list. -/
theorem results_always_list :
    (∀ xs : List JVal, wrapAsList (JVal.arr xs) = xs)
    ∧ (∀ v : JVal, v.isArr = false → wrapAsList v = [v])
    ∧ (∀ (st : ConsumerState) (data : JVal),
        (data.getF "type").isStrEq "result" = true →
        (dispatch st data).resultsCalls =
          st.resultsCalls ++ [wrapAsList (data.getF "data")])
    ∧ (∀ (parse : List Char → Option JVal) (fetchRes : FetchResult) (d : JVal)
        (st : SubmitState), ¬ jsTrim st.url = "" → fetchRes.failed = true →
        (handleSubmit parse fetchRes (.ok d) st).consumer.resultsCalls.getLast? =
          some (wrapAsList d)) := by
  refine ⟨fun xs => rfl, ?_, ?_, ?_⟩
  · intro v hv
    cases v <;> simp_all [wrapAsList, JVal.isArr]
  · intro st data hres
    have h1 : (data.getF "type").isStrEq "progress" = false := by
      rw [isStrEq_eq_true_iff] at hres
      rw [hres]; rfl
    rw [dispatch, if_neg (by simp [h1]), if_pos hres]
  · intro parse fetchRes d st h hf
    exact handleSubmit_fallback_ok_results parse fetchRes d st h hf

/-- Witness for `results_always_list` at concrete payloads on both
paths. -/
theorem results_always_list_witness :
    wrapAsList (.arr [.str "r1", .str "r2"]) = [.str "r1", .str "r2"]
    ∧ wrapAsList (.num 3) = [.num 3]
    ∧ (dispatch emptyConsumer resObj).resultsCalls = [[.str "r1", .str "r2"]]
    ∧ (handleSubmit progParse .notOk (.ok (.num 7))
        initSubmit).consumer.resultsCalls.getLast? = some (wrapAsList (.num 7)) :=
  ⟨results_always_list.1 _, results_always_list.2.1 _ rfl,
    (results_always_list.2.2.1 emptyConsumer resObj rfl).trans (by rfl),
    results_always_list.2.2.2 progParse .notOk (.num 7) initSubmit (by decide) rfl⟩

/-- Skipping of a line whose remainder fails to parse: the handler is
never invoked, the state is unchanged. -/
theorem processLine_skip {σ : Type} (parse : List Char → Option JVal)
    (handle : σ → JVal → σ) (st : σ) (line : List Char)
    (hn : parse (trimChars (line.drop 6)) = none) :
    processLine parse handle st line = st := by
  unfold processLine
  by_cases hp : "data: ".toList.isPrefixOf line
  · rw [if_pos hp]
    by_cases he : (trimChars (line.drop 6)).isEmpty
    · rw [if_pos he]
    · rw [if_neg he, hn]
  · rw [if_neg hp]

/-- C9: a received line that starts with `data: ` but whose remainder
is not valid JSON is skipped and only that line: it leaves the consumer
state (delivered progress and results) unchanged, lines before and
after it are still processed exactly as without it, and the parse
failure neither sets the stream-failure flag nor triggers the
synchronous fallback. -/
theorem bad_line_skipped (parse : List Char → Option JVal) (bad : List Char)
    (hp : "data: ".toList.isPrefixOf bad = true)
    (hn : parse (trimChars (bad.drop 6)) = none) :
    (∀ st : ConsumerState, processLine parse dispatch st bad = st)
    ∧ (∀ (st : ConsumerState) (pre post : List (List Char)),
        (pre ++ bad :: post).foldl (processLine parse dispatch) st =
          (pre ++ post).foldl (processLine parse dispatch) st)
    ∧ (∀ (steps : List ReadStep) (acc : ConsumerState × List Char),
        steps.any ReadStep.isFail = false → (runSteps parse steps acc).2 = false)
    ∧ (∀ (fb : FallbackResult) (st : SubmitState) (steps : List ReadStep),
        ¬ jsTrim st.url = "" → steps.any ReadStep.isFail = false →
        (handleSubmit parse (.ok steps) fb st).fallbackRequests =
          st.fallbackRequests) := by
  refine ⟨fun st => processLine_skip parse dispatch st bad hn, ?_, ?_, ?_⟩
  · intro st pre post
    rw [List.foldl_append, List.foldl_append, List.foldl_cons,
      processLine_skip parse dispatch _ bad hn]
  · intro steps acc hsteps
    rw [runSteps_snd, hsteps]
  · intro fb st steps h hsteps
    rw [handleSubmit_fallbackRequests parse (.ok steps) fb st h]
    have hfail : (FetchResult.ok steps).failed = false := hsteps
    simp [hfail]

/-- A line prefixed `data: ` whose remainder is not valid JSON. -/
def badLine : List Char := "data: nope".toList

/-- Stand-in for `JSON.parse` failing (throwing) on every input fed to
it in this run. -/
def noParse : List Char → Option JVal := fun _ => none

/-- Witness for `bad_line_skipped`: a concrete malformed `data: ` line
inside an otherwise healthy stream. -/
theorem bad_line_skipped_witness :
    "data: ".toList.isPrefixOf badLine = true
    ∧ processLine noParse dispatch emptyConsumer badLine = emptyConsumer
    ∧ (["x".toList] ++ badLine :: ["data: y".toList]).foldl
        (processLine noParse dispatch) emptyConsumer =
      (["x".toList] ++ ["data: y".toList]).foldl
        (processLine noParse dispatch) emptyConsumer
    ∧ (runSteps noParse [.chunk ("data: nope\n".toList)] (emptyConsumer, [])).2 = false
    ∧ (handleSubmit noParse (.ok [.chunk ("data: nope\n".toList)]) (.ok .null)
        initSubmit).fallbackRequests = initSubmit.fallbackRequests :=
  have H := bad_line_skipped noParse badLine (by decide) rfl
  ⟨by decide, H.1 emptyConsumer, H.2.1 emptyConsumer _ _,
    H.2.2.1 _ _ (by decide), H.2.2.2 (.ok .null) initSubmit _ (by decide) (by decide)⟩

end YTSum
